import Mathlib

/-!
Verification of the Fetcher repository (src/fetcher.py): a shallow
embedding of `fetch_url`, `main` (dispatch loop, JSON/CSV/return
formatting) and the `__main__` CLI block, with theorems about the
specified behaviour.

Modelling choices:
- The network is an environment function `env : String → FetchEffect`
  describing, for each URL, what `requests.get(url)` does: return a
  response, raise `requests.RequestException`, or raise some other
  exception.
- Raising an exception is modelled with `Except`.
- The nondeterministic completion order of `as_completed` is an explicit
  parameter `order : List Nat`, a permutation of the indices of the
  submitted futures (each future is keyed by its position in the input
  list, since `executor.submit` returns a fresh future per call even for
  duplicate URLs).
-/

namespace Fetcher

/-- A `requests.Response`: status code and body text.  `fetch_url` reads
only `.text`; the status code is carried to show it is ignored. -/
structure HttpResponse where
  status : Nat
  text : String
deriving DecidableEq, Repr

/-- Outcome of `requests.get(url)` for one URL: a response (any status),
a raised `requests.RequestException` with message, or a raised
exception of any other class with message. -/
inductive FetchEffect where
  | success : HttpResponse → FetchEffect
  | requestException : String → FetchEffect
  | otherException : String → FetchEffect
deriving DecidableEq, Repr

/-- Embedding of `fetch_url` (src/fetcher.py lines 13-18): perform the
GET; on success return `response.text`; on `requests.RequestException e`
return the string `"Error: " ++ e`; any other exception propagates
(modelled as `Except.error`). -/
def fetch_url (env : String → FetchEffect) (url : String) : Except String String :=
  match env url with
  | .success r => .ok r.text
  | .requestException e => .ok ("Error: " ++ e)
  | .otherException e => .error e

/-- One iteration of the `as_completed` loop body (src/fetcher.py lines
54-60) for the future of `url`: `future.result()` either yields the data
or raises, and the `except` branch records `"Generated an exception: "`.
Either way exactly one `(url, outcome)` pair is appended. -/
def dispatchResult (env : String → FetchEffect) (url : String) : String × String :=
  match fetch_url env url with
  | .ok data => (url, data)
  | .error exc => (url, "Generated an exception: " ++ exc)

/-- Embedding of the dispatch loop of `main` (src/fetcher.py lines
51-60): one future per entry of `urls` (keyed by index), consumed in
completion order `order`; indices out of range contribute nothing (a
valid order is a permutation of `List.range urls.length`). -/
def dispatch (env : String → FetchEffect) (urls : List String)
    (order : List Nat) : List (String × String) :=
  order.filterMap (fun i => (urls[i]?).map (dispatchResult env))

/-- Consuming the futures in input order yields the mapped input list. -/
theorem dispatch_range (env : String → FetchEffect) (urls : List String) :
    dispatch env urls (List.range urls.length) = urls.map (dispatchResult env) := by
  induction urls with
  | nil => rfl
  | cons a l ih =>
    simp only [dispatch, List.length_cons, List.range_succ_eq_map,
      List.filterMap_cons, List.getElem?_cons_zero, Option.map_some',
      List.filterMap_map]
    simp only [dispatch] at ih
    simp only [List.map_cons]
    congr 1
    calc List.filterMap ((fun i => ((a :: l)[i]?).map (dispatchResult env)) ∘ Nat.succ)
          (List.range l.length)
        = List.filterMap (fun i => (l[i]?).map (dispatchResult env)) (List.range l.length) := by
          apply List.filterMap_congr
          intro i _
          simp [Function.comp, List.getElem?_cons_succ]
      _ = l.map (dispatchResult env) := ih

/-- Claim C1: for every environment, URL list and completion order that
is a permutation of the submitted future indices, the dispatcher
produces exactly one `(url, result)` pair per submitted URL: the result
list is a permutation of the input list mapped through the per-URL
fetch, in particular it has the same length, and an empty URL list
yields an empty result list. -/
theorem dispatch_one_pair_per_url (env : String → FetchEffect)
    (urls : List String) (order : List Nat)
    (h : order.Perm (List.range urls.length)) :
    (dispatch env urls order).Perm (urls.map (dispatchResult env)) ∧
    (dispatch env urls order).length = urls.length ∧
    (urls = [] → dispatch env urls order = []) := by
  have hperm : (dispatch env urls order).Perm (urls.map (dispatchResult env)) := by
    have := h.filterMap (fun i => (urls[i]?).map (dispatchResult env))
    rw [show List.filterMap (fun i => (urls[i]?).map (dispatchResult env))
        (List.range urls.length) = dispatch env urls (List.range urls.length) from rfl,
      dispatch_range] at this
    exact this
  refine ⟨hperm, ?_, ?_⟩
  · have := hperm.length_eq
    simpa using this
  · intro hnil
    subst hnil
    have : order = [] := by simpa using h
    simp [dispatch, this]

/-- Concrete check of C1: two URLs completing in reversed order give the
two expected pairs, as a permutation of the input mapping. -/
theorem dispatch_one_pair_per_url_witness :
    (dispatch (fun _ => FetchEffect.success ⟨200, "ok"⟩) ["http://a", "http://b"]
      [1, 0]).Perm
      ((["http://a", "http://b"]).map
        (dispatchResult (fun _ => FetchEffect.success ⟨200, "ok"⟩))) ∧
    (dispatch (fun _ => FetchEffect.success ⟨200, "ok"⟩) ["http://a", "http://b"]
      [1, 0]).length = (["http://a", "http://b"]).length ∧
    ((["http://a", "http://b"] : List String) = [] →
      dispatch (fun _ => FetchEffect.success ⟨200, "ok"⟩) ["http://a", "http://b"]
        [1, 0] = []) :=
  dispatch_one_pair_per_url (fun _ => FetchEffect.success ⟨200, "ok"⟩)
    ["http://a", "http://b"] [1, 0] (by decide)

/-- Claim C2: if fetching `url` raises a transport-level error
(`requests.RequestException` with message `cause`), the fetch task
records the pair `(url, "Error: " ++ cause)`; the dispatcher still
returns a full result list of the same length (the error aborts no
other fetch), and no exception escapes (the per-URL step is
`Except.ok`). -/
theorem transport_error_recovered (env : String → FetchEffect)
    (urls : List String) (order : List Nat) (url cause : String)
    (henv : env url = FetchEffect.requestException cause)
    (hmem : url ∈ urls)
    (horder : order.Perm (List.range urls.length)) :
    (url, "Error: " ++ cause) ∈ dispatch env urls order ∧
    fetch_url env url = Except.ok ("Error: " ++ cause) ∧
    (dispatch env urls order).length = urls.length := by
  have hfetch : fetch_url env url = Except.ok ("Error: " ++ cause) := by
    simp [fetch_url, henv]
  have hres : dispatchResult env url = (url, "Error: " ++ cause) := by
    simp [dispatchResult, hfetch]
  refine ⟨?_, hfetch, (dispatch_one_pair_per_url env urls order horder).2.1⟩
  have hperm := (dispatch_one_pair_per_url env urls order horder).1
  have : (url, "Error: " ++ cause) ∈ urls.map (dispatchResult env) := by
    rw [← hres]
    exact List.mem_map_of_mem (dispatchResult env) hmem
  exact hperm.mem_iff.mpr this

/-- Concrete check of C2: an environment raising a transport error for
one of two URLs. -/
theorem transport_error_recovered_witness :
    (("http://bad.test", "Error: boom") ∈
      dispatch
        (fun u => if u == "http://bad.test" then FetchEffect.requestException "boom"
          else FetchEffect.success ⟨200, "ok"⟩)
        ["http://bad.test", "http://good.test"] [1, 0]) ∧
    fetch_url
      (fun u => if u == "http://bad.test" then FetchEffect.requestException "boom"
        else FetchEffect.success ⟨200, "ok"⟩) "http://bad.test"
      = Except.ok ("Error: boom") ∧
    (dispatch
      (fun u => if u == "http://bad.test" then FetchEffect.requestException "boom"
        else FetchEffect.success ⟨200, "ok"⟩)
      ["http://bad.test", "http://good.test"] [1, 0]).length
      = (["http://bad.test", "http://good.test"]).length :=
  transport_error_recovered
    (fun u => if u == "http://bad.test" then FetchEffect.requestException "boom"
      else FetchEffect.success ⟨200, "ok"⟩)
    ["http://bad.test", "http://good.test"] [1, 0] "http://bad.test" "boom"
    (by decide) (by decide) (by decide)

/-- Claim C7: when the HTTP request completes at the transport level
(the environment yields a response), the outcome recorded for the URL is
the response body, whatever the status code: no status check occurs and
the error branch is not taken. -/
theorem non_2xx_not_error (env : String → FetchEffect) (url : String)
    (r : HttpResponse) (henv : env url = FetchEffect.success r) :
    fetch_url env url = Except.ok r.text ∧
    dispatchResult env url = (url, r.text) := by
  constructor
  · simp [fetch_url, henv]
  · simp [dispatchResult, fetch_url, henv]

/-- Concrete check of C7: a 404 response still yields its body as the
outcome, not an error string. -/
theorem non_2xx_not_error_witness :
    fetch_url (fun _ => FetchEffect.success ⟨404, "not found page"⟩) "http://a"
      = Except.ok "not found page" ∧
    dispatchResult (fun _ => FetchEffect.success ⟨404, "not found page"⟩) "http://a"
      = ("http://a", "not found page") :=
  non_2xx_not_error (fun _ => FetchEffect.success ⟨404, "not found page"⟩)
    "http://a" ⟨404, "not found page"⟩ rfl

/-- State of the worker pool during the dispatch loop: URLs not yet
picked up by a worker (in input order), URLs currently being fetched,
and completed `(url, outcome)` pairs in completion order. -/
structure PoolState where
  pending : List String
  inflight : List String
  completed : List (String × String)

/-- Modelled from the spec: the bounded worker-pool semantics of
`ThreadPoolExecutor(max_workers=w)` used by `main` (src/fetcher.py lines
52-54) — the executor class itself is library code not under src/.  All
futures are submitted up front and worker threads take tasks in
submission (input) order, so a task may start only while fewer than `w`
are in flight, and only the head of the pending queue starts; a running
task may finish at any time, appending its pair as the loop body does. -/
inductive PoolStep (env : String → FetchEffect) (w : Nat) :
    PoolState → PoolState → Prop
  | start (u : String) (rest inflight : List String)
      (completed : List (String × String)) :
      inflight.length < w →
      PoolStep env w ⟨u :: rest, inflight, completed⟩
        ⟨rest, inflight ++ [u], completed⟩
  | finish (pre post : List String) (u : String) (pending : List String)
      (completed : List (String × String)) :
      PoolStep env w ⟨pending, pre ++ u :: post, completed⟩
        ⟨pending, pre ++ post, completed ++ [dispatchResult env u]⟩

/-- Pool states reachable from the start of the dispatch loop on `urls`:
everything pending, nothing in flight, nothing completed. -/
inductive Reachable (env : String → FetchEffect) (w : Nat) (urls : List String) :
    PoolState → Prop
  | init : Reachable env w urls ⟨urls, [], []⟩
  | step {s t : PoolState} : Reachable env w urls s → PoolStep env w s t →
      Reachable env w urls t

/-- Claim C3: in every pool state reachable with worker bound `w`, at
most `w` fetch tasks are in flight, and the pending queue is a suffix of
the input list — freed slots are refilled with the next pending URL in
input order. -/
theorem pool_inflight_bounded (env : String → FetchEffect) (w : Nat)
    (urls : List String) (s : PoolState)
    (h : Reachable env w urls s) :
    s.inflight.length ≤ w ∧ ∃ k, s.pending = urls.drop k := by
  induction h with
  | init => exact ⟨Nat.zero_le w, 0, rfl⟩
  | step _ hstep ih =>
    obtain ⟨hb, k, hp⟩ := ih
    cases hstep with
    | start u rest inflight completed hlt =>
      refine ⟨by simpa using hlt, k + 1, ?_⟩
      simp only at hp
      have : urls.drop (k + 1) = (urls.drop k).drop 1 := by
        rw [List.drop_drop]
      rw [this, ← hp]
      rfl
    | finish pre post u pending completed =>
      refine ⟨?_, k, hp⟩
      simp only [List.length_append, List.length_cons] at hb ⊢
      omega

/-- Concrete check of C3: with `w = 1` and two URLs, after starting the
first fetch, finishing it, and starting the second, exactly one task is
in flight and the pending queue is the input suffix after both URLs. -/
theorem pool_inflight_bounded_witness :
    (PoolState.mk [] ["http://b"] [("http://a", "ok")]).inflight.length ≤ 1 ∧
    ∃ k, (PoolState.mk [] ["http://b"] [("http://a", "ok")]).pending
      = (["http://a", "http://b"]).drop k :=
  pool_inflight_bounded (fun _ => FetchEffect.success ⟨200, "ok"⟩) 1
    ["http://a", "http://b"] ⟨[], ["http://b"], [("http://a", "ok")]⟩
    (Reachable.step
      (Reachable.step
        (Reachable.step Reachable.init
          (PoolStep.start "http://a" ["http://b"] [] [] (by decide)))
        (PoolStep.finish [] [] "http://a" ["http://b"] []))
      (PoolStep.start "http://b" [] [] [("http://a", "ok")] (by decide)))

/-- Lowercase hexadecimal digit, as used by Python JSON escapes. -/
def hexDigit (n : Nat) : Char :=
  if n < 10 then Char.ofNat (48 + n) else Char.ofNat (87 + n)

/-- Four lowercase hex digits of a code point below 2^16. -/
def hex4 (n : Nat) : String :=
  String.mk [hexDigit (n / 4096 % 16), hexDigit (n / 256 % 16),
    hexDigit (n / 16 % 16), hexDigit (n % 16)]

/-- Escaping of one character inside a JSON string as `json.dumps` does
with its default `ensure_ascii=True`: short escapes for backslash,
quote, newline, tab, return, backspace and formfeed, and a `\uXXXX`
escape for other control and all non-ASCII characters (code points
beyond the basic multilingual plane are modelled with a single escape
rather than a surrogate pair). -/
def jsonEscapeChar (c : Char) : String :=
  if c = '\\' then "\\\\"
  else if c = '"' then "\\\""
  else if c = '\n' then "\\n"
  else if c = '\t' then "\\t"
  else if c = '\r' then "\\r"
  else if c = Char.ofNat 8 then "\\b"
  else if c = Char.ofNat 12 then "\\f"
  else if c.toNat < 32 ∨ 126 < c.toNat then "\\u" ++ hex4 c.toNat
  else String.singleton c

/-- A Python string rendered as a JSON string literal. -/
def pyJsonString (s : String) : String :=
  "\"" ++ String.join (s.toList.map jsonEscapeChar) ++ "\""

/-- One assignment `d[k] = v` on a Python dict, modelled on an
association list with dict semantics: an existing key keeps its position
and takes the new value, a new key is appended. -/
def dictInsert (d : List (String × String)) (k v : String) :
    List (String × String) :=
  if d.any (fun p => p.1 == k) then
    d.map (fun p => if p.1 == k then (k, v) else p)
  else d ++ [(k, v)]

/-- The dict comprehension of the JSON branch of `main` (src/fetcher.py
line 63): fold the result pairs into a dict, later entries overwriting
earlier ones. -/
def buildDict (results : List (String × String)) : List (String × String) :=
  results.foldl (fun d p => dictInsert d p.1 p.2) []

/-- Lookup in the modelled dict. -/
def dictLookup (u : String) (d : List (String × String)) : Option String :=
  (d.find? (fun p => p.1 == u)).map Prod.snd

/-- The value of the last pair of `results` carrying URL `u`, if any:
what dict insertion order makes the surviving outcome for `u`. -/
def lastOutcome (u : String) (results : List (String × String)) : Option String :=
  ((results.filter (fun p => p.1 == u)).getLast?).map Prod.snd

/-- Embedding of `json.dumps(mapping, indent=2)`: with a two-space
indent, an empty mapping prints as a bare brace pair and a non-empty one
puts each key-value pair on its own indented line. -/
def jsonDumps (d : List (String × String)) : String :=
  match d with
  | [] => "\x7b\x7d"
  | _ => "\x7b\n"
      ++ String.intercalate ",\n"
        (d.map (fun p => "  " ++ pyJsonString p.1 ++ ": " ++ pyJsonString p.2))
      ++ "\n\x7d"

/-- A CSV field under the default minimal quoting of `csv.writer`: quoted,
with inner quotes doubled, whenever it contains the delimiter, the quote
character, or a line-terminator character. -/
def csvField (s : String) : String :=
  if s.toList.any (fun c => c = ',' ∨ c = '"' ∨ c = '\n' ∨ c = '\r') then
    "\"" ++ String.join
      (s.toList.map (fun c => if c = '"' then "\"\"" else String.singleton c))
      ++ "\""
  else s

/-- One CSV row of two fields with the default writer line terminator. -/
def csvRow (a b : String) : String :=
  csvField a ++ "," ++ csvField b ++ "\r\n"

/-- The CSV file content written by the CSV branch of `main`
(src/fetcher.py lines 71-76): header row then one row per result pair in
collection order. -/
def csvOutput (results : List (String × String)) : String :=
  csvRow "URL" "Result" ++ String.join (results.map (fun p => csvRow p.1 p.2))

/-- Observable output of one run: files written as `(path, content)`
pairs in write order, and lines printed to standard output. -/
structure Emission where
  files : List (String × String)
  stdoutLines : List String
deriving DecidableEq, Repr

/-- Embedding of the output section of `main` (src/fetcher.py lines
62-84): the JSON branch writes or prints the serialized mapping; the CSV
branch writes the table to a file, or, with no output file, prints the
rejection message and writes nothing; finally the result list is
returned exactly when `return_list` is set. -/
def formatEmit (results : List (String × String)) (output_file : Option String)
    (output_json output_csv return_list : Bool) :
    Emission × Option (List (String × String)) :=
  let e0 : Emission := ⟨[], []⟩
  let e1 : Emission :=
    if output_json then
      let out := jsonDumps (buildDict results)
      match output_file with
      | some f => ⟨e0.files ++ [(f, out)], e0.stdoutLines⟩
      | none => ⟨e0.files, e0.stdoutLines ++ [out]⟩
    else e0
  let e2 : Emission :=
    if output_csv then
      match output_file with
      | some f => ⟨e1.files ++ [(f, csvOutput results)], e1.stdoutLines⟩
      | none => ⟨e1.files, e1.stdoutLines
          ++ ["Cannot output CSV to stdout. Please specify an output file."]⟩
    else e1
  (e2, if return_list then some results else none)

/-- Embedding of `main` (src/fetcher.py lines 21-84).  Modelled from the
spec in one point: the guard on `max_workers` is raised by the
`ThreadPoolExecutor` constructor, library code not under src/, which
rejects a non-positive worker count with a `ValueError` before any task
is submitted.  Past the guard, `main` collects the dispatch results in
completion order and runs the output section. -/
def main (env : String → FetchEffect) (urls : List String) (order : List Nat)
    (max_workers : Int) (output_file : Option String)
    (output_json output_csv return_list : Bool) :
    Except String (Emission × Option (List (String × String))) :=
  if max_workers ≤ 0 then
    .error "ValueError: max_workers must be greater than 0"
  else
    let results := dispatch env urls order
    .ok (formatEmit results output_file output_json output_csv return_list)

/-- Claim C5: requesting CSV with no output target writes no file,
prints the rejection message (after any JSON output, which is the only
other stdout line), and still returns the result list exactly when
`return_list` is set; the formatter is a total function, so no exception
is raised. -/
theorem csv_stdout_rejected (results : List (String × String))
    (output_json return_list : Bool) :
    (formatEmit results none output_json true return_list).1.files = [] ∧
    (formatEmit results none output_json true return_list).1.stdoutLines
      = (if output_json then [jsonDumps (buildDict results)] else [])
        ++ ["Cannot output CSV to stdout. Please specify an output file."] ∧
    (formatEmit results none output_json true return_list).2
      = (if return_list then some results else none) := by
  cases output_json <;> cases return_list <;> simp [formatEmit]

/-- Claim C8: past the worker-count guard, `main` returns the raw result
list exactly when `return_list` is set, whatever emission also occurred,
and with no JSON, no CSV and no return requested it emits nothing and
returns nothing. -/
theorem return_list_contract (env : String → FetchEffect) (urls : List String)
    (order : List Nat) (output_file : Option String)
    (output_json output_csv : Bool) (w : Int) (hw : 0 < w) :
    main env urls order w output_file output_json output_csv true
      = Except.ok
          ((formatEmit (dispatch env urls order) output_file output_json
            output_csv true).1, some (dispatch env urls order)) ∧
    main env urls order w output_file output_json output_csv false
      = Except.ok
          ((formatEmit (dispatch env urls order) output_file output_json
            output_csv false).1, none) ∧
    main env urls order w output_file false false false
      = Except.ok (⟨[], []⟩, none) := by
  have hnot : ¬ w ≤ 0 := by omega
  refine ⟨?_, ?_, ?_⟩ <;> simp [main, hnot, formatEmit]

/-- Concrete check of C8 at two workers, one URL, JSON to a file. -/
theorem return_list_contract_witness :
    main (fun _ => FetchEffect.success ⟨200, "ok"⟩) ["http://a"] [0] 2
      (some "out.json") true false true
      = Except.ok
          ((formatEmit
            (dispatch (fun _ => FetchEffect.success ⟨200, "ok"⟩) ["http://a"] [0])
            (some "out.json") true false true).1,
           some (dispatch (fun _ => FetchEffect.success ⟨200, "ok"⟩)
            ["http://a"] [0])) ∧
    main (fun _ => FetchEffect.success ⟨200, "ok"⟩) ["http://a"] [0] 2
      (some "out.json") true false false
      = Except.ok
          ((formatEmit
            (dispatch (fun _ => FetchEffect.success ⟨200, "ok"⟩) ["http://a"] [0])
            (some "out.json") true false false).1, none) ∧
    main (fun _ => FetchEffect.success ⟨200, "ok"⟩) ["http://a"] [0] 2
      (some "out.json") false false false
      = Except.ok (⟨[], []⟩, none) :=
  return_list_contract (fun _ => FetchEffect.success ⟨200, "ok"⟩) ["http://a"]
    [0] (some "out.json") true false 2 (by decide)

/-- Claim C9: JSON formatting is a function of the result list alone:
two serializations of equal result lists are byte-identical, both for
the serialized string and for the whole JSON-mode emission. -/
theorem json_format_deterministic (r1 r2 : List (String × String))
    (h : r1 = r2) :
    jsonDumps (buildDict r1) = jsonDumps (buildDict r2) ∧
    formatEmit r1 none true false false = formatEmit r2 none true false false := by
  subst h
  exact ⟨rfl, rfl⟩

/-- Concrete check of C9 on a one-result list. -/
theorem json_format_deterministic_witness :
    jsonDumps (buildDict [("http://a", "body")])
      = jsonDumps (buildDict [("http://a", "body")]) ∧
    formatEmit [("http://a", "body")] none true false false
      = formatEmit [("http://a", "body")] none true false false :=
  json_format_deterministic [("http://a", "body")] [("http://a", "body")] rfl

/-- Claim C10: a non-positive worker count makes `main` fail with the
`ValueError` of the thread-pool constructor before any fetching, emission or
result production: the value of the run is the bare error, carrying no
emission and no results. -/
theorem nonpositive_workers_rejected (env : String → FetchEffect)
    (urls : List String) (order : List Nat) (output_file : Option String)
    (output_json output_csv return_list : Bool) (w : Int) (hw : w ≤ 0) :
    main env urls order w output_file output_json output_csv return_list
      = Except.error "ValueError: max_workers must be greater than 0" := by
  simp [main, hw]

/-- Concrete check of C10 at zero workers. -/
theorem nonpositive_workers_rejected_witness :
    main (fun _ => FetchEffect.success ⟨200, "ok"⟩) ["http://a"] [0] 0
      none false false false
      = Except.error "ValueError: max_workers must be greater than 0" :=
  nonpositive_workers_rejected (fun _ => FetchEffect.success ⟨200, "ok"⟩)
    ["http://a"] [0] none false false false 0 (by decide)


/-- Lookup skips a head pair with a different key. -/
theorem dictLookup_cons_ne (x y u : String) (tl : List (String × String))
    (h : x ≠ u) :
    dictLookup u ((x, y) :: tl) = dictLookup u tl := by
  unfold dictLookup
  rw [List.find?_cons_of_neg _ (by simp [h])]

/-- Lookup returns the value of a head pair with the looked-up key. -/
theorem dictLookup_cons_eq (x y : String) (tl : List (String × String)) :
    dictLookup x ((x, y) :: tl) = some y := by
  unfold dictLookup
  rw [List.find?_cons_of_pos _ (by simp)]
  rfl

/-- Replacing the value at key `k` leaves lookups at other keys alone. -/
theorem dictLookup_map_replace (tl : List (String × String)) (k v u : String)
    (hne : u ≠ k) :
    dictLookup u (tl.map (fun p => if p.1 == k then (k, v) else p))
      = dictLookup u tl := by
  induction tl with
  | nil => rfl
  | cons a tl ih =>
    obtain ⟨x, y⟩ := a
    by_cases hx : x = k
    · have hmap : ((x, y) :: tl).map (fun p => if p.1 == k then (k, v) else p)
          = (k, v) :: tl.map (fun p => if p.1 == k then (k, v) else p) := by
        simp [hx]
      rw [hmap, dictLookup_cons_ne k v u _ (fun hh => hne hh.symm),
        dictLookup_cons_ne x y u tl (by rw [hx]; exact fun hh => hne hh.symm)]
      exact ih
    · have hmap : ((x, y) :: tl).map (fun p => if p.1 == k then (k, v) else p)
          = (x, y) :: tl.map (fun p => if p.1 == k then (k, v) else p) := by
        simp [hx]
      rw [hmap]
      by_cases hxu : x = u
      · rw [← hxu, dictLookup_cons_eq x y _, dictLookup_cons_eq x y tl]
      · rw [dictLookup_cons_ne x y u _ hxu, dictLookup_cons_ne x y u tl hxu]
        exact ih

/-- A dict assignment rewrites the looked-up value at its key and
nothing else. -/
theorem dictLookup_dictInsert (d : List (String × String)) (k v u : String) :
    dictLookup u (dictInsert d k v)
      = if u = k then some v else dictLookup u d := by
  induction d with
  | nil =>
    have hins : dictInsert [] k v = [(k, v)] := by simp [dictInsert]
    by_cases h : u = k
    · rw [hins, if_pos h, h, dictLookup_cons_eq]
    · rw [hins, if_neg h, dictLookup_cons_ne k v u [] (fun hh => h hh.symm)]
  | cons a tl ih =>
    obtain ⟨x, y⟩ := a
    by_cases hx : x = k
    · have hins : dictInsert ((x, y) :: tl) k v
          = (k, v) :: tl.map (fun p => if p.1 == k then (k, v) else p) := by
        simp [dictInsert, hx]
      rw [hins]
      by_cases hu : u = k
      · rw [if_pos hu, hu, dictLookup_cons_eq]
      · rw [if_neg hu, dictLookup_cons_ne k v u _ (fun hh => hu hh.symm),
          dictLookup_cons_ne x y u tl (by rw [hx]; exact fun hh => hu hh.symm)]
        exact dictLookup_map_replace tl k v u hu
    · have hins : dictInsert ((x, y) :: tl) k v = (x, y) :: dictInsert tl k v := by
        by_cases hany : tl.any (fun p => p.1 == k) = true
        · simp [dictInsert, hx, hany]
        · have hany' : tl.any (fun p => p.1 == k) = false := by
            cases hb : tl.any (fun p => p.1 == k) with
            | true => exact absurd hb hany
            | false => rfl
          simp [dictInsert, hx, hany']
      rw [hins]
      by_cases hxu : x = u
      · rw [← hxu, dictLookup_cons_eq x y _, if_neg (by rw [hxu]; exact hxu ▸ hx)]
        rw [dictLookup_cons_eq x y tl]
      · rw [dictLookup_cons_ne x y u _ hxu, ih,
          dictLookup_cons_ne x y u tl hxu]

/-- The last surviving outcome for `u` in a result list headed by
`(k, v)`: the last outcome of the tail if one exists, else `v` when the head
key is `u`. -/
theorem lastOutcome_cons (u k v : String) (rs : List (String × String)) :
    lastOutcome u ((k, v) :: rs)
      = (lastOutcome u rs).or (if k = u then some v else none) := by
  by_cases h : k = u
  · have hfil : ((k, v) :: rs).filter (fun p => p.1 == u)
        = (k, v) :: rs.filter (fun p => p.1 == u) := by
      simp [List.filter_cons, h]
    unfold lastOutcome
    rw [hfil, if_pos h]
    cases hfl : rs.filter (fun p => p.1 == u) with
    | nil => simp
    | cons b l =>
      rw [List.getLast?_cons_cons]
      cases hlast : (b :: l).getLast? with
      | none => exact absurd (List.getLast?_eq_none_iff.mp hlast) (by simp)
      | some x => simp [Option.or]
  · have hfil : ((k, v) :: rs).filter (fun p => p.1 == u)
        = rs.filter (fun p => p.1 == u) := by
      simp [List.filter_cons, h]
    unfold lastOutcome
    rw [hfil, if_neg h, Option.or_none]

/-- Folding result pairs into a dict: the looked-up value is the last
outcome among the new pairs, falling back to the accumulator. -/
theorem dictLookup_foldl (rs : List (String × String))
    (d : List (String × String)) (u : String) :
    dictLookup u (rs.foldl (fun d p => dictInsert d p.1 p.2) d)
      = (lastOutcome u rs).or (dictLookup u d) := by
  induction rs generalizing d with
  | nil => simp [lastOutcome]
  | cons a rs ih =>
    obtain ⟨k, v⟩ := a
    rw [List.foldl_cons, ih, lastOutcome_cons, Option.or_assoc]
    congr 1
    rw [dictLookup_dictInsert]
    by_cases h : u = k
    · simp [h]
    · have h' : ¬ k = u := fun hh => h hh.symm
      simp [h, h']

/-- Dict assignment does not change the key sequence when the key is
present, and appends the key when it is not. -/
theorem keys_dictInsert (d : List (String × String)) (k v : String) :
    (dictInsert d k v).map Prod.fst
      = if d.any (fun p => p.1 == k) then d.map Prod.fst
        else d.map Prod.fst ++ [k] := by
  by_cases hany : d.any (fun p => p.1 == k) = true
  · rw [if_pos hany]
    have hins : dictInsert d k v
        = d.map (fun p => if p.1 == k then (k, v) else p) := by
      simp [dictInsert, hany]
    rw [hins, List.map_map]
    apply List.map_congr_left
    intro p _
    by_cases hp : p.1 = k
    · simp [hp]
    · simp [hp]
  · rw [if_neg hany]
    have hany' : d.any (fun p => p.1 == k) = false := by
      cases hb : d.any (fun p => p.1 == k) with
      | true => exact absurd hb hany
      | false => rfl
    have hins : dictInsert d k v = d ++ [(k, v)] := by
      simp [dictInsert, hany']
    rw [hins, List.map_append]
    rfl

/-- Dict assignment preserves distinctness of keys. -/
theorem keys_dictInsert_nodup (d : List (String × String)) (k v : String)
    (h : (d.map Prod.fst).Nodup) :
    ((dictInsert d k v).map Prod.fst).Nodup := by
  rw [keys_dictInsert]
  by_cases hany : d.any (fun p => p.1 == k) = true
  · rw [if_pos hany]
    exact h
  · rw [if_neg hany]
    have hany' : d.any (fun p => p.1 == k) = false := by
      cases hb : d.any (fun p => p.1 == k) with
      | true => exact absurd hb hany
      | false => rfl
    have hnot : k ∉ d.map Prod.fst := by
      intro hmem
      obtain ⟨p, hp, hk⟩ := List.mem_map.mp hmem
      exact hany (List.any_eq_true.mpr ⟨p, hp, by simp [hk]⟩)
    have hperm : (d.map Prod.fst ++ [k]).Perm (k :: d.map Prod.fst) :=
      List.perm_append_singleton k (d.map Prod.fst)
    exact hperm.nodup_iff.mpr (List.nodup_cons.mpr ⟨hnot, h⟩)

/-- Folding into a dict preserves distinctness of keys. -/
theorem keys_foldl_nodup (rs : List (String × String))
    (d : List (String × String)) (h : (d.map Prod.fst).Nodup) :
    (((rs.foldl (fun d p => dictInsert d p.1 p.2) d)).map Prod.fst).Nodup := by
  induction rs generalizing d with
  | nil => simpa using h
  | cons a rs ih =>
    rw [List.foldl_cons]
    exact ih (dictInsert d a.1 a.2) (keys_dictInsert_nodup d a.1 a.2 h)

/-- Claim C6: the JSON branch emits the serialized URL-to-outcome
mapping; its keys are pairwise distinct, and the entry of each URL holds the
outcome of the last result pair with that URL — later duplicates
overwrite earlier ones. -/
theorem json_duplicate_urls_last_wins (results : List (String × String))
    (u : String) :
    ((buildDict results).map Prod.fst).Nodup ∧
    dictLookup u (buildDict results) = lastOutcome u results ∧
    (formatEmit results none true false false).1.stdoutLines
      = [jsonDumps (buildDict results)] := by
  refine ⟨keys_foldl_nodup results [] (by simp), ?_, by simp [formatEmit]⟩
  rw [buildDict, dictLookup_foldl]
  simp [dictLookup, Option.or_none]

/-- Attribute names bound on the argparse namespace by the parser
declarations of the command-line block (src/fetcher.py lines 106-113):
the positional argument binds `input`, and the flags bind `output`,
`json`, `csv` and `workers` (`--version` exits inside parsing and binds
nothing). -/
def cliNamespaceAttrs : List String := ["input", "output", "json", "csv", "workers"]

/-- Python attribute access `args.<name>` on the parsed namespace:
yields the attribute when the parser bound it, otherwise raises
`AttributeError`. -/
def nsGetAttr (name : String) : Except String String :=
  if cliNamespaceAttrs.contains name then Except.ok name
  else Except.error ("AttributeError: " ++ name)

/-- Embedding of the post-parse part of the command-line block
(src/fetcher.py lines 115-118) as the sequence of namespace attribute
accesses it performs, in evaluation order: `open(args.input_file)`
first, then the keyword arguments of the `main` call.  Each access can
raise; everything else in that block is independent of the namespace. -/
def cliMain : Except String (List String) := do
  let f ← nsGetAttr "input_file"
  let w ← nsGetAttr "max_workers"
  let o ← nsGetAttr "output_file"
  let j ← nsGetAttr "json"
  let c ← nsGetAttr "csv"
  Except.ok [f, w, o, j, c]

/-- Claim C4 (refuted by the code): in the command-line block, the very first
namespace access is `args.input_file`, but the parser bound the
attribute `input`, so the access raises `AttributeError` — the input
file is never read, no URL is dispatched and nothing is emitted, against
the claimed end-to-end CLI behaviour. -/
theorem cli_attribute_error :
    cliMain = Except.error "AttributeError: input_file" := by
  rfl

end Fetcher
